import Mathlib

/-!
Shallow embedding of `backend/autopilot_engine.py` (class `AutopilotEngine`):
the Monte Carlo financial simulation engine.

Modelling conventions:
* Python floats are modelled as `ℚ` (the constants 0.20, 0.25, 0.05, 1.20,
  1.5, 3 of the source are exact decimals, written as rationals).
* Randomness: `_perturb` draws `noise = random.uniform(-f, f)` and returns
  `value * (1 + noise)`.  The drawn noise values are passed in explicitly as a
  function from the month index (and, at the aggregate level, the iteration
  index) to the pair of draws used for income and expenses that month, so
  every theorem quantifies over all possible draws.
* Python exceptions are modelled by `Option`: `current / target` raises
  `ZeroDivisionError` when `target == 0`, and `sorted_balances[i]` raises
  `IndexError` when out of range; both become `none`.
* `sorted(final_balances)` is modelled by `List.insertionSort (· ≤ ·)`:
  on `ℚ` (a linear order) any correct sort is extensionally equal.
* `goal_progress` is a dict keyed by goal id, initialised from the goals
  list; goal ids are unique within a profile, so it is modelled as a list of
  progress values aligned with `user_data.goals`.
* `self.iterations` (engine field, set to 1000 in `__init__`) is passed as an
  explicit `iterations` argument to `runSimulation`.
* `duration_months : ℕ`: `range(d)` is empty for every non-positive `d`, so
  all non-positive Python durations behave exactly like `0`.
* The recommendation strings (`_generate_recommendations`) and rule
  synthesis (`_generate_rules`) are pure string/record templating that no
  claim concerns; they are omitted.  The three scenario bands of the result
  dict carry `final_balance` fields equal to the three percentile statistics
  and `goal_completion_rate` fields equal to min / mean / max of the
  collected `goal_completions`, which are kept as fields of
  `AggregateResult`.
-/

namespace AutopilotEngine

/-- One entry of `user_data["goals"]`: a savings goal with an opaque `id`
(unique within a profile), a `target_amount` and a starting
`current_amount`. -/
structure Goal where
  id : ℕ
  target_amount : ℚ
  current_amount : ℚ
  deriving Repr, DecidableEq

/-- The `user_data` dict passed to the engine. -/
structure UserData where
  current_balance : ℚ
  avg_monthly_income : ℚ
  avg_monthly_expenses : ℚ
  goals : List Goal
  deriving Repr, DecidableEq

/-- The outcome dict of `_simulate_single_iteration`. -/
structure IterationOutcome where
  final_balance : ℚ
  goal_completion : ℚ
  deriving Repr, DecidableEq

/-- The numeric content of the result dict of `run_simulation`.  The three
band `final_balance` fields coincide with the three percentile statistics. -/
structure AggregateResult where
  median_final_balance : ℚ
  worst_case_balance : ℚ
  best_case_balance : ℚ
  worst_goal_completion_rate : ℚ
  median_goal_completion_rate : ℚ
  best_goal_completion_rate : ℚ
  deriving Repr, DecidableEq

/-- `_perturb(value, noise_factor)`: the uniform draw
`noise ~ Uniform(-noise_factor, noise_factor)` is supplied explicitly; the
function returns `value * (1 + noise)`. -/
def perturb (value : ℚ) (noise : ℚ) : ℚ :=
  value * (1 + noise)

/-- `_apply_scenario(scenario, month, income, expenses)`. -/
def applyScenario (scenario : String) (month : ℕ) (income expenses : ℚ) :
    ℚ × ℚ :=
  if scenario = "job_loss" then
    if 3 ≤ month ∧ month < 6 then (0, expenses) else (income, expenses)
  else if scenario = "market_dip" then
    if 2 ≤ month ∧ month < 8 then (income, expenses * (120 / 100))
    else (income, expenses)
  else if scenario = "big_purchase" then
    if month = 6 then (income, expenses + income * (3 / 2))
    else (income, expenses)
  else if scenario = "windfall" then
    if month = 4 then (income + income * 3, expenses) else (income, expenses)
  else (income, expenses)

/-- `_apply_autopilot_rules(mode, income, expenses, balance, goal_progress)`:
returns `(income, expenses, max(savings, 0))`.  `savings` starts at 0 and is
set by the mode branch; the conservative branch also subtracts it from
`expenses`.  `balance` and `goal_progress` are parameters of the Python
function but are never read. -/
def applyAutopilotRules (mode : String) (income expenses balance : ℚ)
    (goal_progress : List ℚ) : ℚ × ℚ × ℚ :=
  if mode = "conservative" then
    let savings := income * (20 / 100)
    (income, expenses - savings, max savings 0)
  else if mode = "balanced" then
    let savings :=
      if income > expenses then (income - expenses) * (25 / 100) else 0
    (income, expenses, max savings 0)
  else if mode = "experimental" then
    let savings := income * (25 / 100) + expenses * (5 / 100)
    (income, expenses, max savings 0)
  else (income, expenses, max 0 0)

/-- The part of the monthly loop body of `_simulate_single_iteration` after
scenario effects: apply the autopilot rules, update the balance, distribute
positive savings evenly over the goals (`numGoals = len(goals)`), and floor
the balance at -1000.  State is `(balance, goal_progress)`. -/
def monthUpdate (mode : String) (numGoals : ℕ) (income expenses : ℚ)
    (balance : ℚ) (goal_progress : List ℚ) : ℚ × List ℚ :=
  let r := applyAutopilotRules mode income expenses balance goal_progress
  let income := r.1
  let expenses := r.2.1
  let savings := r.2.2
  let balance := balance + income - expenses
  let goal_progress :=
    if 0 < savings ∧ numGoals ≠ 0 then
      goal_progress.map (fun p => p + savings / (numGoals : ℚ))
    else goal_progress
  let balance := if balance < -1000 then -1000 else balance
  (balance, goal_progress)

/-- One full month of the loop of `_simulate_single_iteration`: perturb the
nominal income and expenses with that month's noise draws, apply the
scenario, then `monthUpdate`. -/
def monthStep (user_data : UserData) (scenario mode : String)
    (noise : ℕ → ℚ × ℚ) (state : ℚ × List ℚ) (month : ℕ) : ℚ × List ℚ :=
  let income := perturb user_data.avg_monthly_income (noise month).1
  let expenses := perturb user_data.avg_monthly_expenses (noise month).2
  let se := applyScenario scenario month income expenses
  monthUpdate mode user_data.goals.length se.1 se.2 state.1 state.2

/-- The month loop of `_simulate_single_iteration`: starting from
`balance = current_balance` and the goals' starting amounts, run `monthStep`
for months `0, ..., duration_months - 1`. -/
def simulateLoop (user_data : UserData) (scenario mode : String)
    (duration_months : ℕ) (noise : ℕ → ℚ × ℚ) : ℚ × List ℚ :=
  (List.range duration_months).foldl
    (monthStep user_data scenario mode noise)
    (user_data.current_balance,
      user_data.goals.map (fun g => g.current_amount))

/-- One goal's term of the completion sum: `min(current / target, 1.0)`.
Python raises `ZeroDivisionError` when `target == 0`, modelled as `none`. -/
def goalContribution (target current : ℚ) : Option ℚ :=
  if target = 0 then none else some (min (current / target) 1)

/-- Left-to-right effectful map over a list: models a Python `for` loop that
aborts the whole computation when an iteration raises. -/
def optionTraverse {α β : Type} (f : α → Option β) : List α → Option (List β)
  | [] => some []
  | a :: l =>
    match f a with
    | none => none
    | some b =>
      match optionTraverse f l with
      | none => none
      | some l' => some (b :: l')

/-- The goal-completion computation after the month loop: 0 when there are
no goals, otherwise the mean over goals of `min(progress / target, 1.0)`
(the progress list is aligned with the goals list). -/
def goalCompletion (goals : List Goal) (goal_progress : List ℚ) : Option ℚ :=
  if goals.isEmpty then some 0
  else
    match optionTraverse
        (fun gp => goalContribution gp.1.target_amount gp.2)
        (goals.zip goal_progress) with
    | none => none
    | some contribs => some (contribs.sum / (goals.length : ℚ))

/-- `_simulate_single_iteration(user_data, scenario, mode, duration_months)`
with the month's noise draws passed explicitly. -/
def simulateSingleIteration (user_data : UserData) (scenario mode : String)
    (duration_months : ℕ) (noise : ℕ → ℚ × ℚ) : Option IterationOutcome :=
  let final := simulateLoop user_data scenario mode duration_months noise
  (goalCompletion user_data.goals final.2).map
    (fun gc => { final_balance := final.1, goal_completion := gc })

/-- Lines 46-53 of `run_simulation`: sort the final balances ascending and
read the nearest-rank percentiles at indices `int(0.10*n)`, `int(0.50*n)`,
`int(0.90*n)` (`int` truncation on a non-negative value is `floor`).
Returns `(worst, median, best)`; `none` models `IndexError`. -/
def percentileStats (final_balances : List ℚ) : Option (ℚ × ℚ × ℚ) :=
  let sorted_balances := List.insertionSort (· ≤ ·) final_balances
  let n := sorted_balances.length
  let p10_index := (⌊(10 / 100 : ℚ) * (n : ℚ)⌋).toNat
  let p50_index := (⌊(50 / 100 : ℚ) * (n : ℚ)⌋).toNat
  let p90_index := (⌊(90 / 100 : ℚ) * (n : ℚ)⌋).toNat
  match sorted_balances[p10_index]?, sorted_balances[p50_index]?,
      sorted_balances[p90_index]? with
  | some worst, some median, some best => some (worst, median, best)
  | _, _, _ => none

/-- `min(l)` of a Python list, with the source's `if l else 0.0` guard. -/
def listMin : List ℚ → ℚ
  | [] => 0
  | h :: t => t.foldl min h

/-- `max(l)` of a Python list, with the source's `if l else 0.0` guard. -/
def listMax : List ℚ → ℚ
  | [] => 0
  | h :: t => t.foldl max h

/-- `sum(l) / len(l)` of a Python list, with the `if l else 0.0` guard. -/
def listMean (l : List ℚ) : ℚ :=
  if l.isEmpty then 0 else l.sum / (l.length : ℚ)

/-- `run_simulation(user_data, scenario, mode, duration_months)`:
`iterations` is the engine field `self.iterations` (1000 in production);
`noise i` gives iteration `i` its per-month draws. -/
def runSimulation (iterations : ℕ) (user_data : UserData)
    (scenario mode : String) (duration_months : ℕ)
    (noise : ℕ → ℕ → ℚ × ℚ) : Option AggregateResult :=
  match optionTraverse
      (fun i =>
        simulateSingleIteration user_data scenario mode duration_months
          (noise i))
      (List.range iterations) with
  | none => none
  | some results =>
    let final_balances := results.map (fun r => r.final_balance)
    let goal_completions := results.map (fun r => r.goal_completion)
    match percentileStats final_balances with
    | none => none
    | some ps =>
      some
        { median_final_balance := ps.2.1
          worst_case_balance := ps.1
          best_case_balance := ps.2.2
          worst_goal_completion_rate := listMin goal_completions
          median_goal_completion_rate := listMean goal_completions
          best_goal_completion_rate := listMax goal_completions }

end AutopilotEngine

namespace AutopilotEngine

/- Generic helper lemmas about the loop and the Option-valued traversal. -/

theorem foldl_invariant {α β : Type} (f : α → β → α) (P : α → Prop)
    (l : List β) (init : α) (h0 : P init) (hstep : ∀ a b, P a → P (f a b)) :
    P (l.foldl f init) := by
  induction l generalizing init with
  | nil => exact h0
  | cons b t ih => exact ih (f init b) (hstep init b h0)

theorem optionTraverse_cons_eq_some {α β : Type} (f : α → Option β)
    (a : α) (t : List α) (l' : List β)
    (h : optionTraverse f (a :: t) = some l') :
    ∃ b t', f a = some b ∧ optionTraverse f t = some t' ∧ l' = b :: t' := by
  cases hfa : f a with
  | none => simp [optionTraverse, hfa] at h
  | some b =>
    cases ht : optionTraverse f t with
    | none => simp [optionTraverse, hfa, ht] at h
    | some t' =>
      refine ⟨b, t', rfl, rfl, ?_⟩
      simp [optionTraverse, hfa, ht] at h
      exact h.symm

theorem optionTraverse_length {α β : Type} (f : α → Option β) :
    ∀ (l : List α) (l' : List β),
      optionTraverse f l = some l' → l'.length = l.length := by
  intro l
  induction l with
  | nil =>
    intro l' h
    simp only [optionTraverse, Option.some_inj] at h
    simp [← h]
  | cons a t ih =>
    intro l' h
    obtain ⟨b, t', _, ht, rfl⟩ := optionTraverse_cons_eq_some f a t l' h
    simp [ih t' ht]

theorem optionTraverse_mem {α β : Type} (f : α → Option β) :
    ∀ (l : List α) (l' : List β),
      optionTraverse f l = some l' → ∀ b ∈ l', ∃ a ∈ l, f a = some b := by
  intro l
  induction l with
  | nil =>
    intro l' h
    simp only [optionTraverse, Option.some_inj] at h
    subst h
    simp
  | cons a t ih =>
    intro l' h b hb
    obtain ⟨b0, t', hfa, ht, rfl⟩ := optionTraverse_cons_eq_some f a t l' h
    rcases List.mem_cons.mp hb with rfl | hb'
    · exact ⟨a, List.mem_cons_self a t, hfa⟩
    · obtain ⟨a', ha', hfa'⟩ := ih t' ht b hb'
      exact ⟨a', List.mem_cons_of_mem a ha', hfa'⟩

theorem optionTraverse_eq_none {α β : Type} (f : α → Option β) :
    ∀ (l : List α) (a : α), a ∈ l → f a = none →
      optionTraverse f l = none := by
  intro l
  induction l with
  | nil => intro a ha _; exact absurd ha (List.not_mem_nil a)
  | cons x t ih =>
    intro a ha hfa
    rcases List.mem_cons.mp ha with rfl | ha'
    · simp [optionTraverse, hfa]
    · cases hx : f x with
      | none => simp [optionTraverse, hx]
      | some b => simp [optionTraverse, hx, ih a ha' hfa]

end AutopilotEngine

namespace AutopilotEngine

/-- C7: the autopilot policy returns, for conservative mode,
savings = income * 0.20 with that amount also subtracted from expenses; for
balanced mode, savings = (income - expenses) * 0.25 when income > expenses
and 0 otherwise with expenses unchanged; for experimental mode,
savings = income * 0.25 + expenses * 0.05 with expenses unchanged; and in
every mode the returned savings is clamped to be non-negative. -/
theorem policy_formulas_c7 (income expenses balance : ℚ) (gp : List ℚ)
    (mode : String) :
    applyAutopilotRules "conservative" income expenses balance gp
      = (income, expenses - income * (20 / 100), max (income * (20 / 100)) 0)
    ∧ applyAutopilotRules "balanced" income expenses balance gp
      = (income, expenses,
          if income > expenses then (income - expenses) * (25 / 100) else 0)
    ∧ applyAutopilotRules "experimental" income expenses balance gp
      = (income, expenses,
          max (income * (25 / 100) + expenses * (5 / 100)) 0)
    ∧ 0 ≤ (applyAutopilotRules mode income expenses balance gp).2.2 := by
  refine ⟨by simp [applyAutopilotRules], ?_, by simp [applyAutopilotRules], ?_⟩
  · rcases lt_or_le expenses income with hie | hie
    · have hmax : max ((income - expenses) * (25 / 100)) 0
          = (income - expenses) * (25 / 100) := max_eq_left (by nlinarith)
      simp [applyAutopilotRules, hie, hmax]
    · simp [applyAutopilotRules, not_lt.mpr hie]
  · simp only [applyAutopilotRules]
    split_ifs <;> simp

/-- C8: the job_loss scenario forces income to 0 exactly for 0-based month
indices 3, 4 and 5, and leaves income and expenses unchanged for every other
month index. -/
theorem job_loss_window_c8 (month : ℕ) (income expenses : ℚ) :
    applyScenario "job_loss" month income expenses
      = (if 3 ≤ month ∧ month < 6 then 0 else income, expenses) := by
  simp only [applyScenario]
  norm_num
  split_ifs <;> rfl

end AutopilotEngine

namespace AutopilotEngine

theorem monthUpdate_balance_floor (mode : String) (n : ℕ)
    (income expenses balance : ℚ) (gp : List ℚ) :
    -1000 ≤ (monthUpdate mode n income expenses balance gp).1 := by
  simp only [monthUpdate]
  split_ifs with h
  · norm_num
  · exact not_lt.mp h

theorem monthUpdate_progress_length (mode : String) (n : ℕ)
    (income expenses balance : ℚ) (gp : List ℚ) :
    (monthUpdate mode n income expenses balance gp).2.length = gp.length := by
  simp only [monthUpdate]
  split_ifs <;> simp

theorem monthUpdate_progress_nonneg (mode : String) (n : ℕ)
    (income expenses balance : ℚ) (gp : List ℚ)
    (hgp : ∀ p ∈ gp, 0 ≤ p) :
    ∀ p ∈ (monthUpdate mode n income expenses balance gp).2, 0 ≤ p := by
  simp only [monthUpdate]
  split_ifs with h
  · intro p hp
    simp only [List.mem_map] at hp
    obtain ⟨q, hq, rfl⟩ := hp
    have hs : (0 : ℚ) ≤ (applyAutopilotRules mode income expenses balance gp).2.2 :=
      le_of_lt h.1
    have hn : (0 : ℚ) ≤ (n : ℚ) := Nat.cast_nonneg n
    have := hgp q hq
    have := div_nonneg hs hn
    linarith
  · exact hgp

theorem monthStep_balance_floor (u : UserData) (s m : String)
    (ν : ℕ → ℚ × ℚ) (state : ℚ × List ℚ) (month : ℕ) :
    -1000 ≤ (monthStep u s m ν state month).1 :=
  monthUpdate_balance_floor _ _ _ _ _ _

theorem monthStep_progress_length (u : UserData) (s m : String)
    (ν : ℕ → ℚ × ℚ) (state : ℚ × List ℚ) (month : ℕ) :
    (monthStep u s m ν state month).2.length = state.2.length :=
  monthUpdate_progress_length _ _ _ _ _ _

theorem monthStep_progress_nonneg (u : UserData) (s m : String)
    (ν : ℕ → ℚ × ℚ) (state : ℚ × List ℚ) (month : ℕ)
    (hgp : ∀ p ∈ state.2, 0 ≤ p) :
    ∀ p ∈ (monthStep u s m ν state month).2, 0 ≤ p :=
  monthUpdate_progress_nonneg _ _ _ _ _ _ hgp

theorem simulateLoop_progress_length (u : UserData) (s m : String)
    (d : ℕ) (ν : ℕ → ℚ × ℚ) :
    (simulateLoop u s m d ν).2.length = u.goals.length := by
  have := foldl_invariant (monthStep u s m ν)
    (fun state => state.2.length = u.goals.length) (List.range d)
    (u.current_balance, u.goals.map (fun g => g.current_amount))
    (by simp)
    (fun a b ha => (monthStep_progress_length u s m ν a b).trans ha)
  exact this

theorem simulateLoop_progress_nonneg (u : UserData) (s m : String)
    (d : ℕ) (ν : ℕ → ℚ × ℚ)
    (hg : ∀ g ∈ u.goals, 0 ≤ g.current_amount) :
    ∀ p ∈ (simulateLoop u s m d ν).2, 0 ≤ p := by
  have := foldl_invariant (monthStep u s m ν)
    (fun state => ∀ p ∈ state.2, 0 ≤ p) (List.range d)
    (u.current_balance, u.goals.map (fun g => g.current_amount))
    (by
      intro p hp
      simp only [List.mem_map] at hp
      obtain ⟨g, hgmem, rfl⟩ := hp
      exact hg g hgmem)
    (fun a b ha => monthStep_progress_nonneg u s m ν a b ha)
  exact this

theorem simulateLoop_balance_floor (u : UserData) (s m : String)
    (d : ℕ) (ν : ℕ → ℚ × ℚ) (hd : 1 ≤ d) :
    -1000 ≤ (simulateLoop u s m d ν).1 := by
  obtain ⟨k, rfl⟩ : ∃ k, d = k + 1 := ⟨d - 1, by omega⟩
  simp only [simulateLoop, List.range_succ, List.foldl_append, List.foldl_cons,
    List.foldl_nil]
  exact monthStep_balance_floor u s m ν _ k

theorem simulateSingleIteration_eq_some (u : UserData) (s m : String)
    (d : ℕ) (ν : ℕ → ℚ × ℚ) (out : IterationOutcome)
    (h : simulateSingleIteration u s m d ν = some out) :
    out.final_balance = (simulateLoop u s m d ν).1
    ∧ goalCompletion u.goals (simulateLoop u s m d ν).2
        = some out.goal_completion := by
  simp only [simulateSingleIteration, Option.map_eq_some'] at h
  obtain ⟨gc, hgc, rfl⟩ := h
  exact ⟨rfl, hgc⟩

end AutopilotEngine

namespace AutopilotEngine

theorem percentileStats_eq_some (l : List ℚ) (w med b : ℚ)
    (h : percentileStats l = some (w, med, b)) :
    w ∈ l ∧ med ∈ l ∧ b ∈ l ∧ w ≤ med ∧ med ≤ b := by
  simp only [percentileStats] at h
  split at h <;> try exact Option.noConfusion h
  rename_i w0 med0 b0 hw0 hmed0 hb0
  obtain ⟨rfl, rfl, rfl⟩ : w0 = w ∧ med0 = med ∧ b0 = b := by
    simpa [Prod.ext_iff] using h
  set s := List.insertionSort (· ≤ ·) l with hs
  have hperm : List.Perm s l := List.perm_insertionSort _ l
  have hmemw : w0 ∈ l := hperm.mem_iff.mp (List.getElem?_mem hw0)
  have hmemmed : med0 ∈ l := hperm.mem_iff.mp (List.getElem?_mem hmed0)
  have hmemb : b0 ∈ l := hperm.mem_iff.mp (List.getElem?_mem hb0)
  obtain ⟨hiw, hgw⟩ := List.getElem?_eq_some.mp hw0
  obtain ⟨himed, hgmed⟩ := List.getElem?_eq_some.mp hmed0
  obtain ⟨hib, hgb⟩ := List.getElem?_eq_some.mp hb0
  have hsorted : s.Sorted (· ≤ ·) := List.sorted_insertionSort _ l
  have hn : (0 : ℚ) ≤ (s.length : ℚ) := Nat.cast_nonneg _
  have hidx1 : (⌊(10 / 100 : ℚ) * (s.length : ℚ)⌋).toNat
      ≤ (⌊(50 / 100 : ℚ) * (s.length : ℚ)⌋).toNat :=
    Int.toNat_le_toNat (Int.floor_le_floor
      (mul_le_mul_of_nonneg_right (by norm_num) hn))
  have hidx2 : (⌊(50 / 100 : ℚ) * (s.length : ℚ)⌋).toNat
      ≤ (⌊(90 / 100 : ℚ) * (s.length : ℚ)⌋).toNat :=
    Int.toNat_le_toNat (Int.floor_le_floor
      (mul_le_mul_of_nonneg_right (by norm_num) hn))
  have hle1 : w0 ≤ med0 := by
    have := hsorted.rel_get_of_le
      (a := ⟨_, hiw⟩) (b := ⟨_, himed⟩) (Fin.mk_le_mk.mpr hidx1)
    simpa [List.get_eq_getElem, hgw, hgmed] using this
  have hle2 : med0 ≤ b0 := by
    have := hsorted.rel_get_of_le
      (a := ⟨_, himed⟩) (b := ⟨_, hib⟩) (Fin.mk_le_mk.mpr hidx2)
    simpa [List.get_eq_getElem, hgmed, hgb] using this
  exact ⟨hmemw, hmemmed, hmemb, hle1, hle2⟩

theorem runSimulation_eq_some (its : ℕ) (u : UserData) (s m : String)
    (d : ℕ) (ν : ℕ → ℕ → ℚ × ℚ) (r : AggregateResult)
    (h : runSimulation its u s m d ν = some r) :
    ∃ results : List IterationOutcome,
      optionTraverse
        (fun i => simulateSingleIteration u s m d (ν i))
        (List.range its) = some results
      ∧ percentileStats (results.map (fun out => out.final_balance))
          = some (r.worst_case_balance, r.median_final_balance,
              r.best_case_balance)
      ∧ r.worst_goal_completion_rate
          = listMin (results.map (fun out => out.goal_completion))
      ∧ r.median_goal_completion_rate
          = listMean (results.map (fun out => out.goal_completion))
      ∧ r.best_goal_completion_rate
          = listMax (results.map (fun out => out.goal_completion)) := by
  simp only [runSimulation] at h
  split at h <;> try exact Option.noConfusion h
  rename_i results hres
  split at h <;> try exact Option.noConfusion h
  rename_i ps hps
  obtain rfl := Option.some_inj.mp h
  exact ⟨results, hres, hps, rfl, rfl, rfl⟩

end AutopilotEngine

namespace AutopilotEngine

theorem runSimulation_demo_one :
    runSimulation 1 ⟨1000, 4000, 3000, []⟩ "job_loss" "balanced" 1
      (fun _ _ => (0, 0)) = some ⟨2000, 2000, 2000, 0, 0, 0⟩ := by
  have hbc : ("balanced" : String) ≠ "conservative" := by decide
  have h2 : (2 : ℤ).toNat = 2 := rfl
  norm_num [runSimulation, optionTraverse, simulateSingleIteration,
    simulateLoop, List.range_succ, monthStep, monthUpdate, applyScenario,
    applyAutopilotRules, perturb, goalCompletion, percentileStats,
    listMin, listMax, listMean, List.insertionSort, List.orderedInsert,
    hbc, h2]

theorem runSimulation_demo_three :
    runSimulation 3 ⟨1000, 4000, 3000, []⟩ "job_loss" "balanced" 1
      (fun _ _ => (0, 0)) = some ⟨2000, 2000, 2000, 0, 0, 0⟩ := by
  have hbc : ("balanced" : String) ≠ "conservative" := by decide
  have h2 : (2 : ℤ).toNat = 2 := rfl
  norm_num [runSimulation, optionTraverse, simulateSingleIteration,
    simulateLoop, List.range_succ, monthStep, monthUpdate, applyScenario,
    applyAutopilotRules, perturb, goalCompletion, percentileStats,
    listMin, listMax, listMean, List.insertionSort, List.orderedInsert,
    hbc, h2]

/-- C4: the balance is floored at -1000 at the end of every simulated month,
so for any duration of at least one month the final balance of every
trajectory is at least -1000, and hence so are the three percentile balances
of any aggregate result. -/
theorem balance_floor_c4 (u : UserData) (s m : String) (d : ℕ)
    (ν : ℕ → ℚ × ℚ) (its : ℕ) (ν2 : ℕ → ℕ → ℚ × ℚ) (r : AggregateResult)
    (hd : 1 ≤ d)
    (hrun : runSimulation its u s m d ν2 = some r) :
    -1000 ≤ (simulateLoop u s m d ν).1
    ∧ -1000 ≤ r.worst_case_balance
    ∧ -1000 ≤ r.median_final_balance
    ∧ -1000 ≤ r.best_case_balance := by
  obtain ⟨results, hres, hps, -, -, -⟩ :=
    runSimulation_eq_some its u s m d ν2 r hrun
  obtain ⟨hw, hm, hb, -, -⟩ := percentileStats_eq_some _ _ _ _ hps
  have hbound : ∀ x ∈ results.map (fun out => out.final_balance),
      -1000 ≤ x := by
    intro x hx
    obtain ⟨out, hout, rfl⟩ := List.mem_map.mp hx
    obtain ⟨i, -, hiter⟩ :=
      optionTraverse_mem _ (List.range its) results hres out hout
    obtain ⟨hfb, -⟩ :=
      simulateSingleIteration_eq_some u s m d (ν2 i) out hiter
    rw [hfb]
    exact simulateLoop_balance_floor u s m d (ν2 i) hd
  exact ⟨simulateLoop_balance_floor u s m d ν hd,
    hbound _ hw, hbound _ hm, hbound _ hb⟩

/-- Witness for C4 at a concrete profile and run. -/
theorem balance_floor_c4_witness :
    -1000
        ≤ (simulateLoop ⟨1000, 4000, 3000, []⟩ "job_loss" "balanced" 1
            (fun _ => (0, 0))).1
      ∧ -1000 ≤ (2000 : ℚ) ∧ -1000 ≤ (2000 : ℚ) ∧ -1000 ≤ (2000 : ℚ) :=
  balance_floor_c4 ⟨1000, 4000, 3000, []⟩ "job_loss" "balanced" 1
    (fun _ => (0, 0)) 1 (fun _ _ => (0, 0)) ⟨2000, 2000, 2000, 0, 0, 0⟩
    (by decide) runSimulation_demo_one

/-- C6: for every run of the simulation that returns an aggregate result
(stated with the spec's hypothesis of at least 3 iterations), the percentile
statistics are ordered: worst case is at most the median, which is at most
the best case. -/
theorem percentile_ordering_c6 (its : ℕ) (u : UserData) (s m : String)
    (d : ℕ) (ν : ℕ → ℕ → ℚ × ℚ) (r : AggregateResult)
    (hits : 3 ≤ its)
    (h : runSimulation its u s m d ν = some r) :
    r.worst_case_balance ≤ r.median_final_balance
    ∧ r.median_final_balance ≤ r.best_case_balance := by
  obtain ⟨results, -, hps, -, -, -⟩ := runSimulation_eq_some its u s m d ν r h
  obtain ⟨-, -, -, h1, h2⟩ := percentileStats_eq_some _ _ _ _ hps
  exact ⟨h1, h2⟩

/-- Witness for C6 at a concrete run with 3 iterations. -/
theorem percentile_ordering_c6_witness :
    (2000 : ℚ) ≤ 2000 ∧ (2000 : ℚ) ≤ 2000 :=
  percentile_ordering_c6 3 ⟨1000, 4000, 3000, []⟩ "job_loss" "balanced" 1
    (fun _ _ => (0, 0)) ⟨2000, 2000, 2000, 0, 0, 0⟩ (by decide)
    runSimulation_demo_three

end AutopilotEngine

namespace AutopilotEngine

theorem percentileStats_of_sorted (l : List ℚ) (hs : l.Sorted (· ≤ ·))
    (w med b : ℚ)
    (hw : l[(⌊(10 / 100 : ℚ) * (l.length : ℚ)⌋).toNat]? = some w)
    (hm : l[(⌊(50 / 100 : ℚ) * (l.length : ℚ)⌋).toNat]? = some med)
    (hb : l[(⌊(90 / 100 : ℚ) * (l.length : ℚ)⌋).toNat]? = some b) :
    percentileStats l = some (w, med, b) := by
  simp only [percentileStats, hs.insertionSort_eq]
  rw [hw, hm, hb]

/-- C5: the aggregator reads nearest-rank percentiles of the ascending-sorted
final balances at indices floor(0.10 n), floor(0.50 n), floor(0.90 n): on the
outcome set of the 1000 distinct values 0..999 it returns
(worst, median, best) = (sorted 100, sorted 500, sorted 900) = (100, 500, 900). -/
theorem percentile_nearest_rank_c5 :
    percentileStats ((List.range 1000).map (fun i : ℕ => (i : ℚ)))
      = some (100, 500, 900) := by
  have hlen : ((List.range 1000).map (fun i : ℕ => (i : ℚ))).length = 1000 := by
    simp
  refine percentileStats_of_sorted _ ?_ _ _ _ ?_ ?_ ?_
  · exact (List.pairwise_lt_range 1000).map _ (fun a b h => by exact_mod_cast h.le)
  · rw [hlen]
    have h1 : ⌊(10 / 100 : ℚ) * ((1000 : ℕ) : ℚ)⌋ = 100 := by norm_num
    have ht : ((100 : ℤ)).toNat = 100 := rfl
    rw [h1, ht, List.getElem?_map, List.getElem?_range (by norm_num : (100 : ℕ) < 1000)]
    norm_num
  · rw [hlen]
    have h1 : ⌊(50 / 100 : ℚ) * ((1000 : ℕ) : ℚ)⌋ = 500 := by norm_num
    have ht : ((500 : ℤ)).toNat = 500 := rfl
    rw [h1, ht, List.getElem?_map, List.getElem?_range (by norm_num : (500 : ℕ) < 1000)]
    norm_num
  · rw [hlen]
    have h1 : ⌊(90 / 100 : ℚ) * ((1000 : ℕ) : ℚ)⌋ = 900 := by norm_num
    have ht : ((900 : ℤ)).toNat = 900 := rfl
    rw [h1, ht, List.getElem?_map, List.getElem?_range (by norm_num : (900 : ℕ) < 1000)]
    norm_num

theorem runSimulation_windfall_demo :
    runSimulation 1 ⟨1000, 4000, 3000, []⟩ "windfall" "balanced" 1
      (fun _ _ => (0, 0)) = some ⟨2000, 2000, 2000, 0, 0, 0⟩ := by
  have hbc : ("balanced" : String) ≠ "conservative" := by decide
  have hw1 : ("windfall" : String) ≠ "job_loss" := by decide
  have hw2 : ("windfall" : String) ≠ "market_dip" := by decide
  have hw3 : ("windfall" : String) ≠ "big_purchase" := by decide
  norm_num [runSimulation, optionTraverse, simulateSingleIteration,
    simulateLoop, List.range_succ, monthStep, monthUpdate, applyScenario,
    applyAutopilotRules, perturb, goalCompletion, percentileStats,
    listMin, listMax, listMean, List.insertionSort, List.orderedInsert,
    hbc, hw1, hw2, hw3]

/-- C9 counterexample: on the spec's end-to-end profile (windfall, balanced,
one month, no noise, one iteration) the engine returns 2000 for all three
percentile balances, not 14000: with duration 1 only month 0 runs and the
windfall fires only at month 4. -/
theorem windfall_e2e_c9_counterexample :
    runSimulation 1 ⟨1000, 4000, 3000, []⟩ "windfall" "balanced" 1
      (fun _ _ => (0, 0)) = some ⟨2000, 2000, 2000, 0, 0, 0⟩
    ∧ (2000 : ℚ) ≠ 14000 :=
  ⟨runSimulation_windfall_demo, by norm_num⟩

/-- C9 (amended): with duration_months = 1 only month 0 is simulated and the
windfall applies only at month 4, so month 0 keeps income 4000; the balanced
policy yields savings (4000 - 3000) * 0.25 = 250; the final balance is
1000 + 4000 - 3000 = 2000; and with 1 iteration all three percentile bands
equal 2000. -/
theorem windfall_e2e_c9_amended :
    applyScenario "windfall" 0 4000 3000 = (4000, 3000)
    ∧ applyAutopilotRules "balanced" 4000 3000 1000 [] = (4000, 3000, 250)
    ∧ runSimulation 1 ⟨1000, 4000, 3000, []⟩ "windfall" "balanced" 1
        (fun _ _ => (0, 0)) = some ⟨2000, 2000, 2000, 0, 0, 0⟩ := by
  refine ⟨?_, ?_, runSimulation_windfall_demo⟩
  · have hw1 : ("windfall" : String) ≠ "job_loss" := by decide
    have hw2 : ("windfall" : String) ≠ "market_dip" := by decide
    have hw3 : ("windfall" : String) ≠ "big_purchase" := by decide
    norm_num [applyScenario, hw1, hw2, hw3]
  · have hbc : ("balanced" : String) ≠ "conservative" := by decide
    norm_num [applyAutopilotRules, hbc]

end AutopilotEngine

namespace AutopilotEngine

/-- C2 counterexample: with an unknown scenario name, an unknown mode name
and a non-positive duration, run_simulation does not fail: it returns a
normal aggregate result (the starting balance passes through unchanged). -/
theorem invalid_config_c2_counterexample :
    runSimulation 2 ⟨500, 0, 0, []⟩ "not_a_scenario" "not_a_mode" 0
      (fun _ _ => (0, 0)) = some ⟨500, 500, 500, 0, 0, 0⟩ := by
  have h1 : ("not_a_scenario" : String) ≠ "job_loss" := by decide
  have h2 : ("not_a_scenario" : String) ≠ "market_dip" := by decide
  have h3 : ("not_a_scenario" : String) ≠ "big_purchase" := by decide
  have h4 : ("not_a_scenario" : String) ≠ "windfall" := by decide
  have h5 : ("not_a_mode" : String) ≠ "conservative" := by decide
  have h6 : ("not_a_mode" : String) ≠ "balanced" := by decide
  have h7 : ("not_a_mode" : String) ≠ "experimental" := by decide
  have ht : ((1 : ℤ)).toNat = 1 := rfl
  norm_num [runSimulation, optionTraverse, simulateSingleIteration,
    simulateLoop, List.range_succ, List.range_zero, monthStep, monthUpdate,
    applyScenario, applyAutopilotRules, perturb, goalCompletion,
    percentileStats, listMin, listMax, listMean, List.insertionSort,
    List.orderedInsert, h1, h2, h3, h4, h5, h6, h7, ht]

/-- C2 (amended): the engine performs no validation and never fails fast on
an invalid configuration: an unknown scenario name applies no scenario
effect, an unknown mode name produces zero savings, a non-positive duration
simulates zero months, and run_simulation returns a normal aggregate result
(the iteration count is a fixed engine constant, not a caller input). -/
theorem invalid_config_c2_amended (s m : String) (month : ℕ)
    (income expenses balance : ℚ) (gp : List ℚ)
    (hs : s ∉ (["job_loss", "market_dip", "big_purchase", "windfall"] :
      List String))
    (hm : m ∉ (["conservative", "balanced", "experimental"] : List String)) :
    applyScenario s month income expenses = (income, expenses)
    ∧ applyAutopilotRules m income expenses balance gp
        = (income, expenses, 0) := by
  simp only [List.mem_cons, List.not_mem_nil, or_false, not_or] at hs hm
  obtain ⟨hs1, hs2, hs3, hs4⟩ := hs
  obtain ⟨hm1, hm2, hm3⟩ := hm
  constructor
  · simp [applyScenario, hs1, hs2, hs3, hs4]
  · simp [applyAutopilotRules, hm1, hm2, hm3]

/-- Witness for C2 (amended) at concrete unknown names. -/
theorem invalid_config_c2_witness :
    applyScenario "foo" 0 1 2 = (1, 2)
    ∧ applyAutopilotRules "bar" 1 2 3 [] = (1, 2, 0) :=
  invalid_config_c2_amended "foo" "bar" 0 1 2 3 [] (by decide) (by decide)

end AutopilotEngine

namespace AutopilotEngine

theorem zip_mem_of_getElem {α β : Type} (l₁ : List α) (l₂ : List β) (i : ℕ)
    (h1 : i < l₁.length) (h2 : i < l₂.length) :
    (l₁[i], l₂[i]) ∈ l₁.zip l₂ := by
  have hlen : i < (l₁.zip l₂).length := by
    rw [List.length_zip]
    omega
  have : (l₁.zip l₂)[i] = (l₁[i], l₂[i]) := List.getElem_zip
  rw [← this]
  exact List.getElem_mem hlen

/-- C1 counterexample: a goal with target_amount = 0 is not treated as
already complete; the completion-ratio division raises (modelled: the
iteration returns none), so the computation is not total. -/
theorem degenerate_target_c1_counterexample :
    simulateSingleIteration ⟨0, 0, 0, [⟨1, 0, 5⟩]⟩ "job_loss" "balanced" 1
      (fun _ => (0, 0)) = none := by
  have hbc : ("balanced" : String) ≠ "conservative" := by decide
  norm_num [simulateSingleIteration, simulateLoop, List.range_succ,
    List.range_zero, monthStep, monthUpdate, applyScenario,
    applyAutopilotRules, perturb, goalCompletion, optionTraverse,
    goalContribution, hbc]

/-- C1 (amended): a goal with target_amount = 0 makes the completion
computation raise ZeroDivisionError (modelled: simulate_iteration returns
none), aborting the simulation instead of being treated as 100% complete;
and a goal with target_amount < 0 and positive progress contributes the
negative ratio progress/target, not 1.0. -/
theorem degenerate_target_c1_amended (u : UserData) (s m : String) (d : ℕ)
    (ν : ℕ → ℚ × ℚ) (g : Goal) (hg : g ∈ u.goals)
    (h0 : g.target_amount = 0) :
    simulateSingleIteration u s m d ν = none
    ∧ ∀ target current : ℚ, target < 0 → 0 < current →
        goalContribution target current = some (current / target)
        ∧ current / target < 0 := by
  constructor
  · obtain ⟨i, hi, hgi⟩ := List.mem_iff_getElem.mp hg
    have hplen : (simulateLoop u s m d ν).2.length = u.goals.length :=
      simulateLoop_progress_length u s m d ν
    have hi2 : i < (simulateLoop u s m d ν).2.length := by omega
    have hmem : (g, (simulateLoop u s m d ν).2[i]) ∈
        u.goals.zip (simulateLoop u s m d ν).2 := by
      have := zip_mem_of_getElem u.goals (simulateLoop u s m d ν).2 i hi hi2
      rwa [hgi] at this
    have hnone : optionTraverse
        (fun gp => goalContribution gp.1.target_amount gp.2)
        (u.goals.zip (simulateLoop u s m d ν).2) = none :=
      optionTraverse_eq_none _ _ _ hmem (by simp [goalContribution, h0])
    have hne : u.goals.isEmpty = false := by
      cases hu : u.goals with
      | nil => rw [hu] at hg; exact absurd hg (List.not_mem_nil g)
      | cons a t => rfl
    simp [simulateSingleIteration, goalCompletion, hne, hnone]
  · intro target current ht hc
    have hne : target ≠ 0 := ne_of_lt ht
    have hdiv : current / target < 0 := div_neg_of_pos_of_neg hc ht
    refine ⟨?_, hdiv⟩
    simp [goalContribution, hne, min_eq_left (le_trans hdiv.le zero_le_one)]

/-- Witness for C1 (amended) at a concrete profile and degenerate targets. -/
theorem degenerate_target_c1_witness :
    simulateSingleIteration ⟨0, 0, 0, [⟨1, 0, 5⟩]⟩ "job_loss" "balanced" 0
      (fun _ => (0, 0)) = none
    ∧ (goalContribution (-1) 1 = some (1 / (-1 : ℚ)) ∧ (1 : ℚ) / (-1) < 0) :=
  ⟨(degenerate_target_c1_amended ⟨0, 0, 0, [⟨1, 0, 5⟩]⟩ "job_loss" "balanced"
      0 (fun _ => (0, 0)) ⟨1, 0, 5⟩ (List.mem_singleton.mpr rfl) rfl).1,
   (degenerate_target_c1_amended ⟨0, 0, 0, [⟨1, 0, 5⟩]⟩ "job_loss" "balanced"
      0 (fun _ => (0, 0)) ⟨1, 0, 5⟩ (List.mem_singleton.mpr rfl) rfl).2
     (-1) 1 (by norm_num) (by norm_num)⟩

end AutopilotEngine

namespace AutopilotEngine

theorem list_sum_le_length (l : List ℚ) (h : ∀ x ∈ l, x ≤ 1) :
    l.sum ≤ (l.length : ℚ) := by
  induction l with
  | nil => simp
  | cons a t ih =>
    simp only [List.sum_cons, List.length_cons]
    have ha := h a (List.mem_cons_self a t)
    have ht := ih (fun x hx => h x (List.mem_cons_of_mem a hx))
    push_cast
    linarith

/-- C3 counterexample: a profile whose goal has a negative target produces a
goal_completion of -1, outside the interval from 0 to 1. -/
theorem goal_completion_c3_counterexample :
    simulateSingleIteration ⟨0, 0, 0, [⟨1, -1, 1⟩]⟩ "job_loss" "balanced" 0
      (fun _ => (0, 0)) = some ⟨0, -1⟩
    ∧ ¬(0 ≤ (-1 : ℚ) ∧ (-1 : ℚ) ≤ 1) := by
  constructor
  · norm_num [simulateSingleIteration, simulateLoop, List.range_zero,
      goalCompletion, optionTraverse, goalContribution, min_def]
  · norm_num

/-- C3 (amended): for every profile whose goals all have positive targets
and non-negative starting amounts, and every scenario, mode, duration and
noise draw, the goal_completion of a returned trajectory lies in the closed
interval from 0 to 1. -/
theorem goal_completion_bounds_c3 (u : UserData) (s m : String) (d : ℕ)
    (ν : ℕ → ℚ × ℚ) (out : IterationOutcome)
    (hg : ∀ g ∈ u.goals, 0 < g.target_amount ∧ 0 ≤ g.current_amount)
    (h : simulateSingleIteration u s m d ν = some out) :
    0 ≤ out.goal_completion ∧ out.goal_completion ≤ 1 := by
  obtain ⟨-, hgc⟩ := simulateSingleIteration_eq_some u s m d ν out h
  by_cases hempty : u.goals.isEmpty
  · simp only [goalCompletion, if_pos hempty] at hgc
    obtain heq := Option.some_inj.mp hgc
    rw [← heq]
    norm_num
  · simp only [goalCompletion, if_neg hempty] at hgc
    split at hgc
    · exact Option.noConfusion hgc
    · rename_i contribs htrav
      have heq := Option.some_inj.mp hgc
      rw [← heq]
      have hnonneg : ∀ x ∈ contribs, 0 ≤ x := by
        intro x hx
        obtain ⟨⟨g', p⟩, hpair, hcontrib⟩ :=
          optionTraverse_mem _ _ _ htrav x hx
        obtain ⟨hg', hp⟩ := List.of_mem_zip hpair
        have htarget := (hg g' hg').1
        have hp0 : 0 ≤ p :=
          simulateLoop_progress_nonneg u s m d ν
            (fun g hgm => (hg g hgm).2) p hp
        simp only [goalContribution, if_neg (ne_of_gt htarget)] at hcontrib
        obtain rfl := Option.some_inj.mp hcontrib
        exact le_min (div_nonneg hp0 htarget.le) zero_le_one
      have hle1 : ∀ x ∈ contribs, x ≤ 1 := by
        intro x hx
        obtain ⟨⟨g', p⟩, hpair, hcontrib⟩ :=
          optionTraverse_mem _ _ _ htrav x hx
        have htarget := (hg g' (List.of_mem_zip hpair).1).1
        simp only [goalContribution, if_neg (ne_of_gt htarget)] at hcontrib
        obtain rfl := Option.some_inj.mp hcontrib
        exact min_le_right _ _
      have hlen : contribs.length = u.goals.length := by
        have h1 := optionTraverse_length _ _ _ htrav
        rw [h1, List.length_zip, simulateLoop_progress_length, Nat.min_self]
      have hpos : 0 < ((u.goals.length : ℕ) : ℚ) := by
        cases hu : u.goals with
        | nil => rw [hu] at hempty; simp at hempty
        | cons a t =>
          simp only [List.length_cons]
          push_cast
          positivity
      constructor
      · exact div_nonneg (List.sum_nonneg hnonneg) hpos.le
      · rw [div_le_one hpos]
        calc contribs.sum ≤ (contribs.length : ℚ) :=
              list_sum_le_length _ hle1
          _ = (u.goals.length : ℚ) := by rw [hlen]

/-- Witness for C3 (amended) at a concrete one-goal profile. -/
theorem goal_completion_bounds_c3_witness :
    0 ≤ (0 : ℚ) ∧ (0 : ℚ) ≤ 1 :=
  goal_completion_bounds_c3 ⟨0, 0, 0, [⟨1, 10, 0⟩]⟩ "job_loss" "balanced" 0
    (fun _ => (0, 0)) ⟨0, 0⟩
    (by
      intro g hgm
      rw [List.mem_singleton] at hgm
      subst hgm
      exact ⟨by norm_num, by norm_num⟩)
    (by norm_num [simulateSingleIteration, simulateLoop, List.range_zero,
      goalCompletion, optionTraverse, goalContribution, min_def])

end AutopilotEngine

namespace AutopilotEngine

theorem list_sum_map_add (l : List ℚ) (c : ℚ) :
    (l.map (fun p => p + c)).sum = l.sum + (l.length : ℚ) * c := by
  induction l with
  | nil => simp
  | cons a t ih =>
    simp only [List.map_cons, List.sum_cons, List.length_cons]
    push_cast
    rw [ih]
    ring

/-- C10: in conservative mode a month's savings amount (income * 0.20) is
counted twice: it is subtracted from expenses before the balance update, so
the post-month balance is balance + (income - expenses) + savings, and the
same amount is also distributed in full to the goal-progress totals. -/
theorem conservative_double_count_c10 (income expenses balance : ℚ)
    (gp : List ℚ) (n : ℕ)
    (hn : n ≠ 0) (hlen : gp.length = n) (hi : 0 < income)
    (hfloor : -1000 ≤ balance + income - (expenses - income * (20 / 100))) :
    (monthUpdate "conservative" n income expenses balance gp).1
        = balance + (income - expenses) + income * (20 / 100)
    ∧ (monthUpdate "conservative" n income expenses balance gp).2.sum
        = gp.sum + income * (20 / 100) := by
  have hsav : (0 : ℚ) < income * (20 / 100) := mul_pos hi (by norm_num)
  have hmax : max (income * (20 / 100)) 0 = income * (20 / 100) :=
    max_eq_left hsav.le
  have hnq : ((n : ℕ) : ℚ) ≠ 0 := Nat.cast_ne_zero.mpr hn
  simp only [monthUpdate, applyAutopilotRules, eq_self_iff_true, if_true,
    hmax]
  rw [if_pos (⟨hsav, hn⟩ : 0 < income * (20 / 100) ∧ n ≠ 0),
    if_neg (not_lt.mpr hfloor)]
  constructor
  · ring
  · rw [list_sum_map_add, hlen, mul_comm ((n : ℕ) : ℚ),
      div_mul_cancel₀ _ hnq]

/-- Witness for C10 at concrete values. -/
theorem conservative_double_count_c10_witness :
    (monthUpdate "conservative" 1 100 50 0 [0]).1
        = 0 + (100 - 50) + 100 * (20 / 100)
    ∧ (monthUpdate "conservative" 1 100 50 0 [0]).2.sum
        = [0].sum + 100 * (20 / 100) :=
  conservative_double_count_c10 100 50 0 [0] 1 (by decide) rfl (by norm_num)
    (by norm_num)

end AutopilotEngine
